import Mathlib

/-!
Shallow embedding of the request-control core of `advanced-echo-server`
(Go): the directive resolver (`getHeaderOrEnv`), the delay simulator
(`applyDelays`), the chaos/forced-status injector (`processTestingFeatures`,
forced-status section), the scenario engine (`scenarioHandler` POST path and
`processScenario`), the bounded request history (`recordRequest`) and the
replay executor (`replayHandler`).

Machine integers: the Go code works on `int` values that stay far from the
64-bit boundaries on every path the theorems touch (cursor values are at most
the scenario length, delays are clamped around 300000, history sizes are
small), so they are embedded as `Int` / `Nat` without wrap-around.
`math/rand.(*Rand).Intn(n)` panics when `n <= 0`; the embedding makes that
explicit by returning `Option`/a dedicated outcome instead of a number.
Wall-clock sleeping is a side effect with no data flow back into the
handler, so the embedding records the duration that would be slept.
-/

namespace EchoServer

/-- Digit-string value: `some` of the decimal value when the character list
is non-empty and all digits, `none` otherwise. Helper for `atoi`. -/
def digitsVal (cs : List Char) : Option Nat :=
  if cs = [] then none
  else if cs.all Char.isDigit then
    some (cs.foldl (fun acc c => acc * 10 + (c.toNat - 48)) 0)
  else none

/-- Embedding of Go `strconv.Atoi`: an optional sign followed by one or more
decimal digits; anything else is a parse error (`none`). The Go function
also range-errors past 64 bits, which no value in the verified paths
reaches. -/
def atoi (s : String) : Option Int :=
  match s.data with
  | '+' :: rest => (digitsVal rest).map Int.ofNat
  | '-' :: rest => (digitsVal rest).map fun n => -(n : Int)
  | cs => (digitsVal cs).map Int.ofNat

/-- Embedding of Go `strings.TrimSuffix s suf`: drop `suf` from the end of
`s` when it is a suffix, else return `s` unchanged. -/
def trimSuffix (s suf : String) : String :=
  if s.data.length ≥ suf.data.length ∧
      s.data.drop (s.data.length - suf.data.length) = suf.data then
    String.mk (s.data.take (s.data.length - suf.data.length))
  else s

/-- Split a character list at every occurrence of `sep` (the separators are
consumed). Matches Go `strings.Split` for a one-character separator. -/
def splitOnChar (sep : Char) : List Char → List (List Char)
  | [] => [[]]
  | c :: cs =>
    let r := splitOnChar sep cs
    if c = sep then [] :: r
    else
      match r with
      | [] => [[c]]
      | h :: t => (c :: h) :: t

/-- Embedding of Go `strings.Split s sep` for a one-character separator. -/
def goSplit (s : String) (sep : Char) : List String :=
  (splitOnChar sep s.data).map String.mk

/-- Embedding of Go `strings.Contains s sub` for a one-character `sub`. -/
def goContainsChar (s : String) (c : Char) : Bool :=
  s.data.contains c

/-- Embedding of `r.Header.Get name` / `resp.Header.Get name`: the first
value recorded under `name`, or the empty string. (Go canonicalises header
names on both sides; the embedding uses the already-canonical spelling.) -/
def headerGet (headers : List (String × String)) (name : String) : String :=
  match headers.find? (fun p => p.1 = name) with
  | some p => p.2
  | none => ""

/-- Embedding of `getHeaderOrEnv` (main.go): the request-header value when
non-empty, otherwise the process-wide environment default. `headerVal` is
`r.Header.Get header` and `envVal` is `os.Getenv(env)`. -/
def getHeaderOrEnv (headerVal envVal : String) : String :=
  if headerVal ≠ "" then headerVal else envVal

/-- Embedding of `math/rand.(*Rand).Intn n`: `none` models the Go panic when
`n ≤ 0`; otherwise the draw is the raw generator output `draw` reduced into
`[0, n)`. -/
def intn (draw n : Int) : Option Int :=
  if n ≤ 0 then none else some (draw % n)

/-- A single canned response of a scenario (Go `Response`). -/
structure Response where
  status : Int
  delay : String
  body : String
deriving DecidableEq, Repr

/-- A scenario definition posted to the scenario endpoint (Go `Scenario`). -/
structure Scenario where
  path : String
  responses : List Response
deriving DecidableEq, Repr

/-- Lookup in an association list, embedding `sync.Map.Load`. -/
def mapLoad {α : Type} (tbl : List (String × α)) (k : String) : Option α :=
  match tbl.find? (fun p => p.1 = k) with
  | some p => some p.2
  | none => none

/-- Store in an association list, embedding `sync.Map.Store` (replace the
binding for the key when present, else append). -/
def mapStore {α : Type} : List (String × α) → String → α → List (String × α)
  | [], k, v => [(k, v)]
  | p :: rest, k, v =>
    if p.1 = k then (k, v) :: rest else p :: mapStore rest k v

/-- The scenario engine's shared state: the `scenarios` map (path to
response list) and the `scenarioIndex` map (path to cursor). The cursor is
a Go `int` whose stored values are always non-negative (0 at install or
`LoadOrStore`, `index + 1` after a serve), so it is embedded as `Nat` and
Go's `%` on it agrees with `Nat.mod`. -/
structure ScenarioState where
  scenarios : List (String × List Response)
  scenarioIndex : List (String × Nat)
deriving DecidableEq, Repr

/-- Embedding of the POST path of `scenarioHandler`: every decoded scenario
is stored under its path and its cursor reset to 0, with no validation of
the response list (an empty list is accepted). Returns the new state and
the HTTP status written (200). -/
def scenarioHandlerPost (st : ScenarioState) (data : List Scenario) :
    ScenarioState × Nat :=
  (data.foldl
    (fun acc s =>
      { scenarios := mapStore acc.scenarios s.path s.responses
        scenarioIndex := mapStore acc.scenarioIndex s.path 0 })
    st, 200)

/-- What `processScenario` did for a request: no scenario installed for the
path (fall through to ordinary echo), a Go runtime panic from `idx % 0` on
an empty response list, or a served response. `delayDraw` is threaded to the
range form of the per-response delay. -/
inductive ScenarioOutcome where
  | notHandled
  | panicModZero
  | served (resp : Response) (index : Nat) (delayMs : Option Int)
      (headers : List (String × String)) (bodyWritten : String)
deriving DecidableEq, Repr

/-- Embedding of the per-response delay block of `processScenario`: the
duration slept (`some ms`) or no sleep, given the raw RNG draw for the
range form. The range form never panics (`max - min + 1 ≥ 1` is guarded by
`max ≥ min`). -/
def scenarioDelay (delay : String) (draw : Int) : Option Int :=
  if delay ≠ "" then
    if goContainsChar delay '-' then
      match goSplit delay '-' with
      | [p1, p2] =>
        let minStr := trimSuffix p1 "ms"
        let maxStr := trimSuffix p2 "ms"
        match atoi minStr, atoi maxStr with
        | some mn, some mx =>
          if mx ≥ mn then (intn draw (mx - mn + 1)).map (fun r => mn + r)
          else none
        | _, _ => none
      | _ => none
    else
      match atoi (trimSuffix delay "ms") with
      | some ms => some (if ms > 300000 then 300000 else ms)
      | none => none
  else none

/-- Embedding of `processScenario` (part_003:226-273). Looks up the path's
scenario; when present, reads the cursor (defaulting to 0 via
`LoadOrStore`), reduces it modulo the response count — a modulo by zero,
hence a Go panic, when the stored response list is empty — serves
`responses[index]` and stores back `index + 1` (not reduced). `requestDump`
stands for `echoRequestInfo r`, used when the response body is empty. -/
def processScenario (st : ScenarioState) (path : String)
    (requestDump : String) (draw : Int) : ScenarioOutcome × ScenarioState :=
  match mapLoad st.scenarios path with
  | none => (.notHandled, st)
  | some responses =>
    if h : responses.length = 0 then
      (.panicModZero,
        { st with scenarioIndex :=
            mapStore st.scenarioIndex path ((mapLoad st.scenarioIndex path).getD 0) })
    else
      let index := (mapLoad st.scenarioIndex path).getD 0 % responses.length
      let resp := responses.get ⟨index, Nat.mod_lt _ (Nat.pos_of_ne_zero h)⟩
      let st' := { st with scenarioIndex := mapStore st.scenarioIndex path (index + 1) }
      let delayMs := scenarioDelay resp.delay draw
      let body := if resp.body ≠ "" then resp.body else requestDump
      (.served resp index delayMs
        [("X-Echo-Scenario", "true"), ("Content-Type", "application/json")] body, st')

/-- The five delay directives as resolved by `getHeaderOrEnv` for one
request (header value when non-empty, else environment default). -/
structure DelayDirectives where
  delay : String
  jitter : String
  randomDelay : String
  exponential : String
  latency : String
deriving DecidableEq, Repr

/-- Which branch of `applyDelays` performed the sleep. The latency family
has two forms with distinct log lines in the source, kept distinct here. -/
inductive DelayFamily where
  | fixedDelay
  | jitterDelay
  | randomRange
  | exponentialBackoff
  | latencyFixed
  | latencyRange
deriving DecidableEq, Repr

/-- Result of `applyDelays`: fell through every family, slept for `ms`
milliseconds in one family, or hit a Go panic from `rng.Intn(n)` with
`n ≤ 0`. -/
inductive DelayOutcome where
  | noDelay
  | slept (family : DelayFamily) (ms : Int)
  | panicIntn
deriving DecidableEq, Repr

/-- Simple-delay branch of `applyDelays` (part_005:199-211): `some` when the
branch returns, `none` when it falls through to the jitter branch. -/
def fixedDelayBranch (delayStr : String) : Option DelayOutcome :=
  if delayStr ≠ "" then
    match atoi (trimSuffix delayStr "ms") with
    | some delayMs =>
      if delayMs > 0 then
        some (.slept .fixedDelay (if delayMs > 300000 then 300000 else delayMs))
      else none
    | none => none
  else none

/-- Jitter branch of `applyDelays` (part_005:214-234). With `variance = 0`
the source calls `rng.Intn(0)`, a Go panic, modelled by `intn` returning
`none`. -/
def jitterBranch (jitterStr : String) (draw : Int) : Option DelayOutcome :=
  if jitterStr ≠ "" then
    match goSplit jitterStr ',' with
    | [p1, p2] =>
      match atoi p1, atoi p2 with
      | some base, some variance =>
        if variance ≥ 0 then
          match intn draw (variance * 2) with
          | none => some .panicIntn
          | some r =>
            let jitter := r - variance
            let total0 := base + jitter
            let total1 := if total0 < 0 then 0 else total0
            some (.slept .jitterDelay (if total1 > 300000 then 300000 else total1))
        else none
      | _, _ => none
    | _ => none
  else none

/-- Random-delay branch of `applyDelays` (part_005:237-253). Only `max` is
clamped to 300000; when the clamp pushes `max` below `min` the source calls
`rng.Intn` of a non-positive count, a Go panic. -/
def randomDelayBranch (randomStr : String) (draw : Int) : Option DelayOutcome :=
  if randomStr ≠ "" then
    match goSplit randomStr ',' with
    | [p1, p2] =>
      match atoi p1, atoi p2 with
      | some mn, some mx0 =>
        if mx0 ≥ mn then
          let mx := if mx0 > 300000 then 300000 else mx0
          match intn draw (mx - mn + 1) with
          | none => some .panicIntn
          | some r => some (.slept .randomRange (mn + r))
        else none
      | _, _ => none
    | _ => none
  else none

/-- Exponential-backoff branch of `applyDelays` (part_005:256-277). The
source computes `base * int(math.Pow(2, attempt-1))`, exact as
`base * 2 ^ (attempt - 1)` for the attempt sizes any verified path uses,
and `int(float64(expDelay) * 0.25)`, exact as `expDelay / 4` for the
post-clamp range `[1, 300000]`. With `jitterAmt = 0` (i.e. `expDelay ≤ 3`,
e.g. `base = 1, attempt = 1`) the source calls `rng.Intn(0)`, a Go panic. -/
def exponentialBranch (expStr : String) (draw : Int) : Option DelayOutcome :=
  if expStr ≠ "" then
    match goSplit expStr ',' with
    | [p1, p2] =>
      match atoi p1, atoi p2 with
      | some base, some attempt =>
        if base > 0 ∧ attempt > 0 then
          let expDelay0 := base * 2 ^ (attempt - 1).toNat
          let expDelay := if expDelay0 > 300000 then 300000 else expDelay0
          let jitterAmt := expDelay / 4
          match intn draw (jitterAmt * 2) with
          | none => some .panicIntn
          | some r =>
            let finalDelay := expDelay + r - jitterAmt
            some (.slept .exponentialBackoff (if finalDelay < 0 then 0 else finalDelay))
        else none
      | _, _ => none
    | _ => none
  else none

/-- Latency-injection branch of `applyDelays` (part_005:280-309). In the
range form the source discards the `strconv.Atoi` errors (a failed parse
leaves 0) and applies no ceiling at all; in the fixed form it clamps to
300000. -/
def latencyBranch (latencyStr : String) (draw : Int) : Option DelayOutcome :=
  if latencyStr ≠ "" then
    if goContainsChar latencyStr '-' then
      match goSplit latencyStr '-' with
      | [p1, p2] =>
        let mn := (atoi (trimSuffix p1 "ms")).getD 0
        let mx := (atoi (trimSuffix p2 "ms")).getD 0
        if mx ≥ mn then
          match intn draw (mx - mn + 1) with
          | none => some .panicIntn
          | some r => some (.slept .latencyRange (mn + r))
        else none
      | _ => none
    else
      match atoi (trimSuffix latencyStr "ms") with
      | some ms => some (.slept .latencyFixed (if ms > 300000 then 300000 else ms))
      | none => none
  else none

/-- Embedding of `applyDelays` (part_005:197-310): the five families in
strict priority order, the first branch that returns wins, every failed
parse or validation falls through to the next family. Each execution makes
at most one `rng.Intn` call, so a single raw draw is threaded. -/
def applyDelays (d : DelayDirectives) (draw : Int) : DelayOutcome :=
  match fixedDelayBranch d.delay with
  | some o => o
  | none =>
    match jitterBranch d.jitter draw with
    | some o => o
    | none =>
      match randomDelayBranch d.randomDelay draw with
      | some o => o
      | none =>
        match exponentialBranch d.exponential draw with
        | some o => o
        | none =>
          match latencyBranch d.latency draw with
          | some o => o
          | none => .noDelay

/-- Embedding of `setResponseContentType` (part_005:358-368): the
`X-Echo-Content-Type` request header, else the request `Content-Type`, else
`text/plain`. -/
def setResponseContentType (echoContentType reqContentType : String) : String :=
  if echoContentType ≠ "" then echoContentType
  else if reqContentType ≠ "" then reqContentType
  else "text/plain"

/-- A terminal response written by the forced-status section of
`processTestingFeatures`. -/
structure ForcedStatusResult where
  status : Int
  headers : List (String × String)
  body : String
deriving DecidableEq, Repr

/-- Embedding of the forced-status section of `processTestingFeatures`
(part_005:106-124). `statusStr` is the resolved
`X-Echo-Status`/`ECHO_STATUS` directive, `bodyStr` the buffered request
body, `requestDump` stands for `echoRequestInfo r`, and
`echoContentType`/`reqContentType` feed `setResponseContentType`. `some`
means the pipeline short-circuits with this response; `none` means control
falls to the forced-error check. -/
def processForcedStatus (statusStr method bodyStr requestDump
    echoContentType reqContentType : String) : Option ForcedStatusResult :=
  if statusStr ≠ "" then
    match atoi statusStr with
    | some status =>
      if status ≥ 100 ∧ status ≤ 599 then
        if method = "GET" ∧ bodyStr.data.length = 0 then
          some { status := status
                 headers := [("X-Echo-Status-Forced", "true"),
                             ("Content-Type", "text/plain")]
                 body := requestDump }
        else
          some { status := status
                 headers := [("X-Echo-Status-Forced", "true"),
                             ("Content-Type",
                              setResponseContentType echoContentType reqContentType)]
                 body := bodyStr }
      else none
    | none => none
  else none

/-- A recorded request (Go `RequestRecord`); the wall-clock timestamp field
carries no verified behaviour and is omitted. -/
structure RequestRecord where
  id : String
  method : String
  url : String
  headers : List (String × String)
  body : String
deriving DecidableEq, Repr

/-- Embedding of `recordRequest` (handlers_history.go:88-107): append the
new record, then evict the single oldest entry when the buffer length
exceeds the configured capacity. -/
def recordRequest (historySize : Nat) (requestHistory : List RequestRecord)
    (record : RequestRecord) : List RequestRecord :=
  if (requestHistory ++ [record]).length > historySize then
    (requestHistory ++ [record]).drop 1
  else requestHistory ++ [record]

/-- Recording a whole sequence of requests into an initially empty history,
one `recordRequest` call per request in order. -/
def recordAll (historySize : Nat) (records : List RequestRecord) :
    List RequestRecord :=
  records.foldl (recordRequest historySize) []

/-- The outbound request the replay executor builds (Go
`http.NewRequest` plus `httpReq.Header = record.Headers.Clone()` with the
client's fixed 30-second timeout). -/
structure OutboundRequest where
  method : String
  url : String
  headers : List (String × String)
  body : String
  timeoutSeconds : Nat
deriving DecidableEq, Repr

/-- The upstream response a replay target answers with. -/
structure UpstreamResponse where
  status : Int
  headers : List (String × String)
  body : String
deriving DecidableEq, Repr

/-- Result of `replayHandler`: 400 on an undecodable body, 404 on an
unknown id, 500 on an outbound failure, or the response written back. -/
inductive ReplayResult where
  | badRequest (status : Nat) (msg : String)
  | notFound (status : Nat) (msg : String)
  | upstreamFailure (status : Nat) (msg : String)
  | response (status : Int) (headers : List (String × String)) (body : String)
deriving DecidableEq, Repr

/-- Embedding of `replayHandler` (handlers_history.go:21-85). `parsed` is
the JSON-decoded `{id, target}` body (`none` on decode failure), `schema`
and `host` reconstruct the self-replay URL, and `doRequest` abstracts
`client.Do` (`none` covers request-construction, network and body-read
failures, each of which the source maps to a 500). Of the upstream headers
only `Content-Type` is copied onto the response. -/
def replayHandler (parsed : Option (String × String))
    (requestHistory : List RequestRecord) (schema host : String)
    (doRequest : OutboundRequest → Option UpstreamResponse) : ReplayResult :=
  match parsed with
  | none => .badRequest 400 "Invalid request body"
  | some (reqId, target) =>
    match requestHistory.find? (fun entry => entry.id = reqId) with
    | none => .notFound 404 "Request ID not found"
    | some record =>
      let targetURL :=
        if target = "" then schema ++ "://" ++ host ++ record.url else target
      let outbound : OutboundRequest :=
        { method := record.method, url := targetURL, headers := record.headers
          body := record.body, timeoutSeconds := 30 }
      match doRequest outbound with
      | none => .upstreamFailure 500 "Replay failed"
      | some resp =>
        .response resp.status
          [("Content-Type", headerGet resp.headers "Content-Type")] resp.body

/-- Result of the body-reading prologue of `echoHandler`: the buffered
(possibly truncated) body, or the synchronous 400 error response. -/
inductive BodyReadOutcome where
  | ok (body : String)
  | errorResponse (status : Nat) (msg : String)
deriving DecidableEq, Repr

/-- Embedding of the body-reading prologue of `echoHandler`
(part_005:34-48). `io.ReadAll(io.LimitReader(r.Body, maxBodySize))` yields
at most `maxBodySize` bytes and reports an error only when the underlying
read fails (`readFails`); a body longer than the limit is silently
truncated, never rejected. -/
def echoReadBody (hasBody : Bool) (bodyData : String) (readFails : Bool)
    (maxBodySize : Nat) : BodyReadOutcome :=
  if hasBody then
    if readFails then .errorResponse 400 "Error reading body: "
    else .ok (String.mk (bodyData.data.take maxBodySize))
  else .ok ""

/-- State of the scenario engine after `k` successive requests to `path`,
each handled by `processScenario`. `draws k` is the raw RNG draw available
to the `k`-th request's per-response delay. -/
def scenarioIter (st : ScenarioState) (path requestDump : String)
    (draws : Nat → Int) : Nat → ScenarioState
  | 0 => st
  | Nat.succ k =>
    (processScenario (scenarioIter st path requestDump draws k) path
      requestDump (draws k)).2

/-- Outcome served to the `k`-th request to `path` (0-based), starting from
state `st`. -/
def scenarioServed (st : ScenarioState) (path requestDump : String)
    (draws : Nat → Int) (k : Nat) : ScenarioOutcome :=
  (processScenario (scenarioIter st path requestDump draws k) path
    requestDump (draws k)).1

/-! Helper lemmas shared by the claim theorems. -/

theorem mapLoad_mapStore_self {α : Type} (tbl : List (String × α))
    (k : String) (v : α) : mapLoad (mapStore tbl k v) k = some v := by
  induction tbl with
  | nil => simp [mapLoad, mapStore]
  | cons p rest ih =>
    by_cases h : p.1 = k
    · simp [mapLoad, mapStore, h]
    · simpa [mapLoad, mapStore, h] using ih

theorem processScenario_scenarios_eq (st : ScenarioState)
    (path requestDump : String) (draw : Int) :
    ((processScenario st path requestDump draw).2).scenarios = st.scenarios := by
  unfold processScenario
  split
  · rfl
  · split
    · rfl
    · rfl

theorem processScenario_step (st : ScenarioState) (path requestDump : String)
    (draw : Int) (responses : List Response)
    (hs : mapLoad st.scenarios path = some responses)
    (hne : responses.length ≠ 0) :
    ∃ resp,
      responses[((mapLoad st.scenarioIndex path).getD 0) % responses.length]? =
        some resp ∧
      (processScenario st path requestDump draw).1 =
        .served resp (((mapLoad st.scenarioIndex path).getD 0) % responses.length)
          (scenarioDelay resp.delay draw)
          [("X-Echo-Scenario", "true"), ("Content-Type", "application/json")]
          (if resp.body ≠ "" then resp.body else requestDump) ∧
      (processScenario st path requestDump draw).2 =
        { st with scenarioIndex :=
            (mapStore st.scenarioIndex path
              (((mapLoad st.scenarioIndex path).getD 0) % responses.length + 1)) } := by
  unfold processScenario
  rw [hs]
  dsimp only
  rw [dif_neg hne]
  refine ⟨_, ?_, rfl, rfl⟩
  exact List.getElem?_eq_getElem (Nat.mod_lt _ (Nat.pos_of_ne_zero hne))

theorem recordRequest_length_le (histSize : Nat) (hist : List RequestRecord)
    (record : RequestRecord) (h : hist.length ≤ histSize) :
    (recordRequest histSize hist record).length ≤ histSize := by
  unfold recordRequest
  split
  · rename_i hgt
    simp only [List.length_drop, List.length_append, List.length_cons,
      List.length_nil] at hgt ⊢
    omega
  · rename_i hgt
    simp only [List.length_append, List.length_cons, List.length_nil,
      not_lt] at hgt ⊢
    omega

theorem recordAll_eq_drop (histSize : Nat) (hK : 1 ≤ histSize)
    (records : List RequestRecord) :
    recordAll histSize records = records.drop (records.length - histSize) := by
  induction records using List.reverseRecOn with
  | nil => simp [recordAll]
  | append_singleton xs x ih =>
    unfold recordAll at ih ⊢
    rw [List.foldl_append, List.foldl_cons, List.foldl_nil, ih]
    unfold recordRequest
    have hdr : xs.drop (xs.length - histSize) ++ [x] =
        (xs ++ [x]).drop (xs.length - histSize) := by
      rw [List.drop_append_of_le_length (by omega)]
    rw [hdr]
    split
    · rename_i hgt
      rw [List.drop_drop]
      congr 1
      simp only [List.length_drop, List.length_append, List.length_cons,
        List.length_nil] at hgt ⊢
      omega
    · rename_i hle
      congr 1
      simp only [List.length_drop, List.length_append, List.length_cons,
        List.length_nil, not_lt] at hle ⊢
      omega

theorem fixedDelayBranch_bound (s : String) (f : DelayFamily) (ms : Int)
    (h : fixedDelayBranch s = some (.slept f ms)) :
    f = .fixedDelay ∧ ms ≤ 300000 := by
  unfold fixedDelayBranch at h
  split at h
  · split at h
    · split at h
      · simp only [Option.some.injEq, DelayOutcome.slept.injEq] at h
        obtain ⟨hf, hms⟩ := h
        refine ⟨hf.symm, ?_⟩
        subst hms
        split <;> omega
      · exact absurd h (by simp)
    · exact absurd h (by simp)
  · exact absurd h (by simp)

theorem jitterBranch_bound (s : String) (draw : Int) (f : DelayFamily) (ms : Int)
    (h : jitterBranch s draw = some (.slept f ms)) :
    f = .jitterDelay ∧ ms ≤ 300000 := by
  unfold jitterBranch at h
  split at h
  · split at h
    · split at h
      · split at h
        · split at h
          · exact absurd h (by simp)
          · simp only [Option.some.injEq, DelayOutcome.slept.injEq] at h
            obtain ⟨hf, hms⟩ := h
            refine ⟨hf.symm, ?_⟩
            subst hms
            split <;> omega
        · exact absurd h (by simp)
      · exact absurd h (by simp)
    · exact absurd h (by simp)
  · exact absurd h (by simp)

theorem randomDelayBranch_bound (s : String) (draw : Int) (f : DelayFamily)
    (ms : Int) (h : randomDelayBranch s draw = some (.slept f ms)) :
    f = .randomRange ∧ ms ≤ 300000 := by
  unfold randomDelayBranch at h
  split at h
  · split at h
    · split at h
      · rename_i mn mx0 hmn hmx
        split at h
        · dsimp only at h
          set mxv : Int := if mx0 > 300000 then 300000 else mx0 with hmxv
          have hmxb : mxv ≤ 300000 := by rw [hmxv]; split <;> omega
          split at h
          · exact absurd h (by simp)
          · rename_i r hr
            unfold intn at hr
            split at hr
            · exact absurd hr (by simp)
            · rename_i hpos
              simp only [Option.some.injEq] at hr
              simp only [Option.some.injEq, DelayOutcome.slept.injEq] at h
              obtain ⟨hf, hms⟩ := h
              refine ⟨hf.symm, ?_⟩
              have hlt := Int.emod_lt_of_pos draw
                (show (0 : Int) < mxv - mn + 1 by omega)
              omega
        · exact absurd h (by simp)
      · exact absurd h (by simp)
    · exact absurd h (by simp)
  · exact absurd h (by simp)

theorem exponentialBranch_bound (s : String) (draw : Int) (f : DelayFamily)
    (ms : Int) (h : exponentialBranch s draw = some (.slept f ms)) :
    f = .exponentialBackoff ∧ ms ≤ 374999 := by
  unfold exponentialBranch at h
  split at h
  · split at h
    · split at h
      · rename_i base attempt hb1 hb2
        split at h
        · dsimp only at h
          set e0 : Int := base * 2 ^ (attempt - 1).toNat with he0
          have he0pos : 0 < e0 := by
            rw [he0]
            exact mul_pos (by omega) (pow_pos (by norm_num) _)
          set ed : Int := if e0 > 300000 then 300000 else e0 with hed
          have hedb : 0 < ed ∧ ed ≤ 300000 := by
            rw [hed]; split <;> omega
          split at h
          · exact absurd h (by simp)
          · rename_i r hr
            unfold intn at hr
            split at hr
            · exact absurd hr (by simp)
            · rename_i hpos
              simp only [Option.some.injEq] at hr
              simp only [Option.some.injEq, DelayOutcome.slept.injEq] at h
              obtain ⟨hf, hms⟩ := h
              refine ⟨hf.symm, ?_⟩
              have hlt := Int.emod_lt_of_pos draw
                (show (0 : Int) < ed / 4 * 2 by omega)
              split at hms <;> omega
        · exact absurd h (by simp)
      · exact absurd h (by simp)
    · exact absurd h (by simp)
  · exact absurd h (by simp)

theorem latencyBranch_bound (s : String) (draw : Int) (f : DelayFamily)
    (ms : Int) (h : latencyBranch s draw = some (.slept f ms)) :
    (f = .latencyFixed ∨ f = .latencyRange) ∧
    (f = .latencyFixed → ms ≤ 300000) := by
  unfold latencyBranch at h
  split at h
  · split at h
    · split at h
      · dsimp only at h
        split at h
        · split at h
          · exact absurd h (by simp)
          · simp only [Option.some.injEq, DelayOutcome.slept.injEq] at h
            obtain ⟨hf, hms⟩ := h
            exact ⟨Or.inr hf.symm, fun hfix => by rw [← hf] at hfix; cases hfix⟩
        · exact absurd h (by simp)
      · exact absurd h (by simp)
    · split at h
      · simp only [Option.some.injEq, DelayOutcome.slept.injEq] at h
        obtain ⟨hf, hms⟩ := h
        refine ⟨Or.inl hf.symm, fun _ => ?_⟩
        subst hms
        split <;> omega
      · exact absurd h (by simp)
  · exact absurd h (by simp)

/-! Claim theorems. -/

/-- C4: for every directive, when both the request header and the
process-wide default are non-empty the resolved value is exactly the
header's; when the header is empty it is the default; and the resolved
value is always taken atomically from exactly one of the two sources. -/
theorem C4_directive_precedence (headerVal envVal : String) :
    (headerVal ≠ "" → getHeaderOrEnv headerVal envVal = headerVal) ∧
    (headerVal = "" → getHeaderOrEnv headerVal envVal = envVal) ∧
    (getHeaderOrEnv headerVal envVal = headerVal ∨
      getHeaderOrEnv headerVal envVal = envVal) := by
  unfold getHeaderOrEnv
  by_cases h : headerVal = "" <;> simp [h]

theorem C4_directive_precedence_witness :
    getHeaderOrEnv "25,3" "9" = "25,3" ∧ getHeaderOrEnv "" "9" = "9" :=
  ⟨(C4_directive_precedence "25,3" "9").1 (by decide),
   (C4_directive_precedence "" "9").2.1 rfl⟩

/-- C3: with history capacity `K ≥ 1`, the buffer never exceeds `K` records
after a `recordRequest` call, and recording a whole sequence leaves exactly
the last `K` of them, the oldest evicted first (the retained buffer is the
final suffix of the recorded sequence). -/
theorem C3_history_bounded_fifo (histSize : Nat) (hK : 1 ≤ histSize)
    (hist : List RequestRecord) (record : RequestRecord)
    (hlen : hist.length ≤ histSize) (records : List RequestRecord) :
    (recordRequest histSize hist record).length ≤ histSize ∧
    recordAll histSize records = records.drop (records.length - histSize) ∧
    (recordAll histSize records).length ≤ histSize := by
  refine ⟨recordRequest_length_le histSize hist record hlen, ?_, ?_⟩
  · exact recordAll_eq_drop histSize hK records
  · rw [recordAll_eq_drop histSize hK records]
    simp only [List.length_drop]
    omega

theorem C3_history_bounded_fifo_witness :
    recordAll 2 [⟨"a", "GET", "/1", [], ""⟩, ⟨"b", "GET", "/2", [], ""⟩,
        ⟨"c", "GET", "/3", [], ""⟩] =
      [⟨"b", "GET", "/2", [], ""⟩, ⟨"c", "GET", "/3", [], ""⟩] := by
  have h := C3_history_bounded_fifo 2 (by decide) [] ⟨"a", "GET", "/1", [], ""⟩
    (by decide) [⟨"a", "GET", "/1", [], ""⟩, ⟨"b", "GET", "/2", [], ""⟩,
      ⟨"c", "GET", "/3", [], ""⟩]
  exact h.2.1

/-- C5: the claim says `applyDelays` never raises an error visible to the
caller, naming jitter with variance 0, exponential with `base=1,attempt=1`,
and a random delay whose minimum exceeds the ceiling as examples. On
exactly those directive values the source reaches `rng.Intn(n)` with
`n ≤ 0`, which panics in Go and aborts the request — the code contradicts
the documented always-returns contract, for every possible RNG draw. -/
theorem C5_delay_directive_panics (draw : Int) :
    applyDelays ⟨"", "50,0", "", "", ""⟩ draw = .panicIntn ∧
    applyDelays ⟨"", "", "", "1,1", ""⟩ draw = .panicIntn ∧
    applyDelays ⟨"", "", "400000,500000", "", ""⟩ draw = .panicIntn :=
  ⟨rfl, rfl, rfl⟩

/-- C6 counterexample: the latency directive in its `min-max` range form is
not clamped at all: `X-Echo-Latency: 400000-400000` sleeps 400000 ms,
above the 300000 ms ceiling, for every RNG draw (the range has one
value). -/
theorem C6_counterexample :
    applyDelays ⟨"", "", "", "", "400000-400000"⟩ 0 =
      .slept .latencyRange 400000 ∧ ¬ ((400000 : Int) ≤ 300000) :=
  ⟨rfl, by decide⟩

/-- C6 amended: the 300000 ms ceiling holds for the fixed-delay, jitter,
random-range and fixed-form latency families; it does not hold for the
latency `min-max` range form (no clamp, see the counterexample), and the
exponential family clamps before adding ±25% jitter, so it is bounded only
by 374999 ms. -/
theorem C6_delay_ceiling (d : DelayDirectives) (draw : Int) (f : DelayFamily)
    (ms : Int) (h : applyDelays d draw = .slept f ms) :
    ((f = .fixedDelay ∨ f = .jitterDelay ∨ f = .randomRange ∨
        f = .latencyFixed) → ms ≤ 300000) ∧
    (f = .exponentialBackoff → ms ≤ 374999) := by
  unfold applyDelays at h
  split at h
  · rename_i o heq
    subst h
    obtain ⟨hf, hb⟩ := fixedDelayBranch_bound _ _ _ heq
    subst hf
    exact ⟨fun _ => hb, fun hx => by cases hx⟩
  · split at h
    · rename_i o heq
      subst h
      obtain ⟨hf, hb⟩ := jitterBranch_bound _ _ _ _ heq
      subst hf
      exact ⟨fun _ => hb, fun hx => by cases hx⟩
    · split at h
      · rename_i o heq
        subst h
        obtain ⟨hf, hb⟩ := randomDelayBranch_bound _ _ _ _ heq
        subst hf
        exact ⟨fun _ => hb, fun hx => by cases hx⟩
      · split at h
        · rename_i o heq
          subst h
          obtain ⟨hf, hb⟩ := exponentialBranch_bound _ _ _ _ heq
          subst hf
          refine ⟨fun hx => ?_, fun _ => hb⟩
          rcases hx with hx | hx | hx | hx <;> cases hx
        · split at h
          · rename_i o heq
            subst h
            obtain ⟨hor, hfix⟩ := latencyBranch_bound _ _ _ _ heq
            refine ⟨fun hx => ?_, fun hx => ?_⟩
            · rcases hor with hf | hf
              · exact hfix hf
              · subst hf
                rcases hx with hx | hx | hx | hx <;> cases hx
            · rcases hor with hf | hf <;> (subst hf; cases hx)
          · exact absurd h (by simp)

theorem C6_delay_ceiling_witness : (500 : Int) ≤ 300000 :=
  (C6_delay_ceiling ⟨"500", "", "", "", ""⟩ 0 .fixedDelay 500 rfl).1 (Or.inl rfl)

/-- C7: a resolved `X-Echo-Status`/`ECHO_STATUS` directive that parses to an
integer in `[100, 599]` short-circuits the response with exactly that
status, the response header `X-Echo-Status-Forced: true`, and a body that
echoes the request body (or the textual request dump for a bodyless GET);
values outside the range, and unparseable values, do not short-circuit the
forced-status stage. -/
theorem C7_forced_status (statusStr method bodyStr requestDump ect rct :
    String) :
    (∀ status : Int, atoi statusStr = some status → 100 ≤ status →
      status ≤ 599 →
      ∃ res, processForcedStatus statusStr method bodyStr requestDump ect rct =
          some res ∧
        res.status = status ∧
        headerGet res.headers "X-Echo-Status-Forced" = "true" ∧
        res.body = (if method = "GET" ∧ bodyStr.data.length = 0 then
          requestDump else bodyStr)) ∧
    (∀ status : Int, atoi statusStr = some status →
      (status < 100 ∨ 599 < status) →
      processForcedStatus statusStr method bodyStr requestDump ect rct =
        none) ∧
    (atoi statusStr = none →
      processForcedStatus statusStr method bodyStr requestDump ect rct =
        none) := by
  refine ⟨?_, ?_, ?_⟩
  · intro status hp h1 h2
    have hne : statusStr ≠ "" := by
      intro he
      rw [he] at hp
      simp [atoi, digitsVal] at hp
    unfold processForcedStatus
    rw [if_pos hne, hp]
    dsimp only
    rw [if_pos ⟨h1, h2⟩]
    by_cases hg : method = "GET" ∧ bodyStr.data.length = 0
    · rw [if_pos hg]
      exact ⟨_, rfl, rfl, rfl, by rw [if_pos hg]⟩
    · rw [if_neg hg]
      exact ⟨_, rfl, rfl, rfl, by rw [if_neg hg]⟩
  · intro status hp hout
    have hne : statusStr ≠ "" := by
      intro he
      rw [he] at hp
      simp [atoi, digitsVal] at hp
    unfold processForcedStatus
    rw [if_pos hne, hp]
    dsimp only
    rw [if_neg (show ¬ (status ≥ 100 ∧ status ≤ 599) from fun hin => by omega)]
  · intro hp
    unfold processForcedStatus
    by_cases hs : statusStr = ""
    · simp [hs]
    · rw [if_pos hs, hp]

theorem C7_forced_status_witness :
    ∃ res, processForcedStatus "201" "POST" "hello" "dump" ""
        "application/json" = some res ∧
      res.status = 201 ∧
      headerGet res.headers "X-Echo-Status-Forced" = "true" ∧
      res.body = (if "POST" = "GET" ∧ ("hello" : String).data.length = 0 then
        "dump" else "hello") :=
  (C7_forced_status "201" "POST" "hello" "dump" "" "application/json").1
    201 rfl (by decide) (by decide)

/-- C8 counterexample: the replay executor does not return the upstream
headers verbatim. With an upstream response carrying `X-Foo: bar`, the
response written back carries only the upstream `Content-Type`; `X-Foo` is
dropped. -/
theorem C8_counterexample :
    replayHandler (some ("a", "http://t"))
      [⟨"a", "POST", "/orig", [("X-H", "v")], "B"⟩] "http" "h"
      (fun _ => some ⟨200, [("X-Foo", "bar"), ("Content-Type", "tp")], "up"⟩) =
      .response 200 [("Content-Type", "tp")] "up" ∧
    headerGet [("Content-Type", "tp")] "X-Foo" = "" ∧
    headerGet [("X-Foo", "bar"), ("Content-Type", "tp")] "X-Foo" = "bar" :=
  ⟨rfl, rfl, rfl⟩

/-- C8 amended: for a replay request naming a recorded id with a supplied
target, the executor builds the outbound request from the stored method,
body and headers with the fixed 30-second timeout, and returns the
upstream status and body verbatim — but of the upstream headers it
forwards only `Content-Type`. -/
theorem C8_replay_forwarding (reqId target schema host : String)
    (history : List RequestRecord) (record : RequestRecord)
    (resp : UpstreamResponse)
    (hfind : history.find? (fun entry => entry.id = reqId) = some record)
    (htgt : target ≠ "") :
    (∀ doRequest : OutboundRequest → Option UpstreamResponse,
      replayHandler (some (reqId, target)) history schema host doRequest =
        match doRequest (OutboundRequest.mk record.method target
            record.headers record.body 30) with
        | none => .upstreamFailure 500 "Replay failed"
        | some r => .response r.status
            [("Content-Type", headerGet r.headers "Content-Type")] r.body) ∧
    replayHandler (some (reqId, target)) history schema host
        (fun _ => some resp) =
      .response resp.status
        [("Content-Type", headerGet resp.headers "Content-Type")] resp.body := by
  constructor
  · intro doRequest
    unfold replayHandler
    dsimp only
    rw [hfind]
    dsimp only
    rw [if_neg htgt]
  · unfold replayHandler
    dsimp only
    rw [hfind]

theorem C8_replay_forwarding_witness :
    replayHandler (some ("a", "http://t"))
      [⟨"a", "POST", "/orig", [("X-H", "v")], "B"⟩] "http" "h"
      (fun _ => some ⟨200, [("Content-Type", "tp")], "up"⟩) =
      .response 200
        [("Content-Type",
          headerGet (⟨200, [("Content-Type", "tp")], "up"⟩ :
            UpstreamResponse).headers "Content-Type")] "up" :=
  (C8_replay_forwarding "a" "http://t" "http" "h"
    [⟨"a", "POST", "/orig", [("X-H", "v")], "B"⟩]
    ⟨"a", "POST", "/orig", [("X-H", "v")], "B"⟩
    ⟨200, [("Content-Type", "tp")], "up"⟩ rfl (by decide)).2

/-- C9 counterexample: with a configured maximum body size of 4 bytes, a
5-byte body is not rejected with a 4xx — `io.LimitReader` silently
truncates it to 4 bytes and the handler proceeds. -/
theorem C9_counterexample :
    echoReadBody true "hello" false 4 = .ok "hell" ∧
    4 < ("hello" : String).data.length := ⟨rfl, by decide⟩

/-- C9 amended: a request body longer than the configured maximum is
silently truncated to exactly the first `maxBodySize` bytes and processing
continues; the synchronous 400 arises only when the underlying body read
fails with an I/O error, not from the size of the body. -/
theorem C9_oversized_body_truncated (bodyData : String) (readFails : Bool)
    (maxBodySize : Nat) (hb : maxBodySize < bodyData.data.length) :
    echoReadBody true bodyData readFails maxBodySize =
      (if readFails then .errorResponse 400 "Error reading body: "
       else .ok (String.mk (bodyData.data.take maxBodySize))) ∧
    (String.mk (bodyData.data.take maxBodySize)).data.length = maxBodySize := by
  refine ⟨rfl, ?_⟩
  simp only [List.length_take]
  omega

theorem C9_oversized_body_truncated_witness :
    echoReadBody true "hello" false 4 =
      (if false then BodyReadOutcome.errorResponse 400 "Error reading body: "
       else BodyReadOutcome.ok (String.mk (("hello" : String).data.take 4))) ∧
    (String.mk (("hello" : String).data.take 4)).data.length = 4 :=
  C9_oversized_body_truncated "hello" false 4 (by decide)

/-- C1 counterexample: install the one-response scenario `[{status 201}]`
for `/c1` and serve one request; the value stored in `scenarioIndex` is 1,
which is not in `[0, 1)` — the advance stores `index + 1` unreduced, the
modulo is applied on the next read. -/
theorem C1_counterexample :
    mapLoad ((processScenario
        (scenarioHandlerPost ⟨[], []⟩ [⟨"/c1", [⟨201, "", ""⟩]⟩]).1
        "/c1" "dump" 0).2).scenarioIndex "/c1" = some 1 ∧
    ¬ (1 < ([⟨201, "", ""⟩] : List Response).length) := ⟨rfl, by decide⟩

/-- C1 amended: immediately after `processScenario` advances the cursor for
a path with `N ≥ 1` responses, the stored value is `index + 1` where
`index` is the served position; the stored value lies in `[1, N]`, and it
is the value read back modulo `N` on the next visit — so the position used
for indexing, not the stored value, is always in `[0, N)`. -/
theorem C1_stored_cursor_range (st : ScenarioState) (path requestDump : String)
    (draw : Int) (responses : List Response)
    (hs : mapLoad st.scenarios path = some responses)
    (hne : responses.length ≠ 0) :
    ∃ resp idx delayMs headers body,
      (processScenario st path requestDump draw).1 =
        .served resp idx delayMs headers body ∧
      idx < responses.length ∧
      mapLoad ((processScenario st path requestDump draw).2).scenarioIndex path =
        some (idx + 1) ∧
      1 ≤ idx + 1 ∧ idx + 1 ≤ responses.length := by
  have hpos : 0 < responses.length := Nat.pos_of_ne_zero hne
  obtain ⟨resp, hget, h1, h2⟩ :=
    processScenario_step st path requestDump draw responses hs hne
  refine ⟨resp, _, _, _, _, h1, Nat.mod_lt _ hpos, ?_,
    Nat.le_add_left 1 _, Nat.succ_le_of_lt (Nat.mod_lt _ hpos)⟩
  rw [h2]
  exact mapLoad_mapStore_self _ _ _

theorem C1_stored_cursor_range_witness :
    ∃ resp idx delayMs headers body,
      (processScenario ⟨[("/w1", [⟨201, "", ""⟩, ⟨202, "", ""⟩])], [("/w1", 0)]⟩
        "/w1" "dump" 0).1 = ScenarioOutcome.served resp idx delayMs headers body ∧
      idx < 2 ∧
      mapLoad ((processScenario ⟨[("/w1", [⟨201, "", ""⟩, ⟨202, "", ""⟩])],
        [("/w1", 0)]⟩ "/w1" "dump" 0).2).scenarioIndex "/w1" = some (idx + 1) ∧
      1 ≤ idx + 1 ∧ idx + 1 ≤ 2 :=
  C1_stored_cursor_range ⟨[("/w1", [⟨201, "", ""⟩, ⟨202, "", ""⟩])], [("/w1", 0)]⟩
    "/w1" "dump" 0 [⟨201, "", ""⟩, ⟨202, "", ""⟩] rfl (by decide)

/-- Cursor invariant for iterated scenario requests: the installed response
list never changes and the stored cursor stays congruent to the request
count modulo the response count. -/
theorem scenarioIter_cursor (st0 : ScenarioState) (path requestDump : String)
    (draws : Nat → Int) (responses : List Response)
    (hne : responses.length ≠ 0)
    (hs : mapLoad st0.scenarios path = some responses)
    (hc : mapLoad st0.scenarioIndex path = some 0) :
    ∀ k,
      mapLoad (scenarioIter st0 path requestDump draws k).scenarios path =
        some responses ∧
      ∃ c, mapLoad (scenarioIter st0 path requestDump draws k).scenarioIndex path =
          some c ∧ c % responses.length = k % responses.length := by
  intro k
  induction k with
  | zero => exact ⟨hs, 0, hc, rfl⟩
  | succ k ih =>
    obtain ⟨hsk, c, hck, hmod⟩ := ih
    obtain ⟨resp, hget, h1, h2⟩ := processScenario_step
      (scenarioIter st0 path requestDump draws k) path requestDump (draws k)
      responses hsk hne
    constructor
    · show mapLoad ((processScenario _ _ _ _).2).scenarios path = some responses
      rw [processScenario_scenarios_eq]
      exact hsk
    · refine ⟨c % responses.length + 1, ?_, ?_⟩
      · show mapLoad ((processScenario _ _ _ _).2).scenarioIndex path = _
        rw [h2]
        have := mapLoad_mapStore_self
          (scenarioIter st0 path requestDump draws k).scenarioIndex path
          (((mapLoad (scenarioIter st0 path requestDump draws k).scenarioIndex
            path).getD 0) % responses.length + 1)
        simpa only [hck, Option.getD_some] using this
      · show Nat.ModEq responses.length (c % responses.length + 1) (k + 1)
        exact ((Nat.mod_modEq c responses.length).add_right 1).trans
          ((show Nat.ModEq responses.length c k from hmod).add_right 1)

/-- C2: after installing a scenario with a non-empty response list for a
path, the `k`-th request to that path (0-based) is served exactly entry
`k mod N` of the list — the responses cycle in order from the first entry,
indefinitely. -/
theorem C2_scenario_cyclic (stPrior : ScenarioState) (path requestDump : String)
    (draws : Nat → Int) (responses : List Response)
    (hne : responses ≠ []) (k : Nat) :
    ∃ resp idx delayMs headers body,
      scenarioServed (scenarioHandlerPost stPrior [⟨path, responses⟩]).1
        path requestDump draws k = .served resp idx delayMs headers body ∧
      idx = k % responses.length ∧
      responses[idx]? = some resp := by
  have hlen : responses.length ≠ 0 := by
    simpa using List.length_pos.mpr hne |>.ne'
  have hs0 : mapLoad (scenarioHandlerPost stPrior [⟨path, responses⟩]).1.scenarios
      path = some responses := by
    unfold scenarioHandlerPost
    simpa using mapLoad_mapStore_self stPrior.scenarios path responses
  have hc0 : mapLoad
      (scenarioHandlerPost stPrior [⟨path, responses⟩]).1.scenarioIndex path =
      some 0 := by
    unfold scenarioHandlerPost
    simpa using mapLoad_mapStore_self stPrior.scenarioIndex path 0
  obtain ⟨hsk, c, hck, hmod⟩ := scenarioIter_cursor
    (scenarioHandlerPost stPrior [⟨path, responses⟩]).1 path requestDump draws
    responses hlen hs0 hc0 k
  obtain ⟨resp, hget, h1, h2⟩ := processScenario_step
    (scenarioIter (scenarioHandlerPost stPrior [⟨path, responses⟩]).1
      path requestDump draws k) path requestDump (draws k) responses hsk hlen
  simp only [hck, Option.getD_some] at hget h1
  rw [hmod] at hget h1
  exact ⟨resp, k % responses.length, _, _, _, h1, rfl, hget⟩

theorem C2_scenario_cyclic_witness :
    ∃ resp idx delayMs headers body,
      scenarioServed
        (scenarioHandlerPost ⟨[], []⟩ [⟨"/roll", [⟨201, "", ""⟩, ⟨202, "", ""⟩]⟩]).1
        "/roll" "dump" (fun _ => 0) 3 = ScenarioOutcome.served resp idx delayMs
          headers body ∧
      idx = 3 % ([⟨201, "", ""⟩, ⟨202, "", ""⟩] : List Response).length ∧
      ([⟨201, "", ""⟩, ⟨202, "", ""⟩] : List Response)[idx]? = some resp :=
  C2_scenario_cyclic ⟨[], []⟩ "/roll" "dump" (fun _ => 0)
    [⟨201, "", ""⟩, ⟨202, "", ""⟩] (by decide) 3

/-- C10: the scenario POST endpoint accepts a definition whose response
list is empty (it stores it and answers 200 with no validation), and the
next request to that path makes `processScenario` compute the cursor index
modulo zero — a Go runtime panic — instead of falling through to ordinary
echo rendering. -/
theorem C10_empty_scenario_mod_zero :
    (scenarioHandlerPost ⟨[], []⟩ [⟨"/empty", ([] : List Response)⟩]).2 = 200 ∧
    mapLoad (scenarioHandlerPost ⟨[], []⟩
      [⟨"/empty", ([] : List Response)⟩]).1.scenarios "/empty" = some [] ∧
    (processScenario
      (scenarioHandlerPost ⟨[], []⟩ [⟨"/empty", ([] : List Response)⟩]).1
      "/empty" "dump" 0).1 = .panicModZero ∧
    (processScenario
      (scenarioHandlerPost ⟨[], []⟩ [⟨"/empty", ([] : List Response)⟩]).1
      "/empty" "dump" 0).1 ≠ .notHandled := ⟨rfl, rfl, rfl, by decide⟩

end EchoServer
